import Mathlib

/-!
Verification of the Whisper-Speech-to-Text-Tool transcription pipeline.

The repository couples a React frontend (`frontend/src/App.js`, present in
the sources) with a FastAPI/Whisper backend.  The backend module holding the
transcript formatter, the download endpoints and the `/transcribe/` pipeline
is not among the available source files, so those parts are modelled from the
specification (each such definition carries a doc comment starting with
`Modelled from the spec:`).  The frontend handlers (`handleFileUpload`,
`transcribeFile`, `handleDownloadText`, `handleDownloadSRT`) are embedded
directly from `App.js`.

Floating-point seconds values are modelled as exact rationals (ℚ): every
arithmetic step the formatter performs (multiply by 1000, truncate, divide
with remainder) is exact on the inputs of interest, so ℚ is a faithful
carrier for the truncation semantics the spec describes.
-/

namespace Whisper

/-- One time-aligned unit of recognized speech, as produced by the
Recognition Adapter.  `startSec`/`endSec` are seconds (modelled as ℚ). -/
structure Segment where
  startSec : ℚ
  endSec : ℚ
  text : String
deriving DecidableEq, Repr

/-- Modelled from the spec: truncation (never rounding up) of a float
seconds value to a whole number of milliseconds. -/
def msOf (q : ℚ) : ℕ := (Int.floor (q * 1000)).toNat

/-- Left-pad the decimal rendering of `n` with zeros to width `w`
(the behaviour of printf-style `%0wd`). -/
def padZero (w : ℕ) (n : ℕ) : List Char :=
  let s := (Nat.repr n).data
  List.replicate (w - s.length) '0' ++ s

/-- Modelled from the spec: render a whole number of milliseconds as the
subtitle timecode `HH:MM:SS,mmm`, hours/minutes/seconds zero-padded to 2
digits and milliseconds to 3 digits. -/
def renderMs (t : ℕ) : List Char :=
  padZero 2 (t / 3600000) ++ [':'] ++ padZero 2 (t / 60000 % 60) ++ [':']
    ++ padZero 2 (t / 1000 % 60) ++ [','] ++ padZero 3 (t % 1000)

/-- Modelled from the spec: `format_timecode` renders a non-negative float
seconds value as `HH:MM:SS,mmm`, computed by truncation. -/
def format_timecode (q : ℚ) : String := String.mk (renderMs (msOf q))

/-- One numbered subtitle cue with millisecond-resolution timecodes, as the
Formatter emits it. -/
structure Cue where
  index : ℕ
  startMs : ℕ
  endMs : ℕ
  text : List Char
deriving DecidableEq, Repr

/-- Strip leading and trailing whitespace from a character list (the
Formatter trims each segment text). -/
def trimChars (l : List Char) : List Char :=
  ((l.dropWhile Char.isWhitespace).reverse.dropWhile Char.isWhitespace).reverse

/-- Modelled from the spec: build the cue for the segment at 0-based
position `i`.  The cue index is 1-based; times are truncated to whole
milliseconds; when the model reports `start == end` the rendered end is
clamped to start + 1 ms. -/
def cueOf (i : ℕ) (s : Segment) : Cue :=
  { index := i + 1
  , startMs := msOf s.startSec
  , endMs := if s.startSec = s.endSec then msOf s.startSec + 1 else msOf s.endSec
  , text := trimChars s.text.data }

/-- Modelled from the spec: one cue per segment, in order, with 1-based
consecutive indices. -/
def formatCues (segs : List Segment) : List Cue :=
  segs.enum.map (fun p => cueOf p.1 p.2)

/-- Modelled from the spec: the three lines of one rendered cue —
index line, `start --> end` timecode line, text line. -/
def renderCue (c : Cue) : List (List Char) :=
  [(Nat.repr c.index).data, renderMs c.startMs ++ (" --> ").data ++ renderMs c.endMs, c.text]

/-- Modelled from the spec: all lines of the subtitle document, cue blocks
separated by one blank line. -/
def subtitleLinesOf (segs : List Segment) : List (List Char) :=
  List.intercalate [[]] ((formatCues segs).map renderCue)

/-- Modelled from the spec: the subtitle document as a single string,
lines joined by newlines. -/
def subtitleTextOf (segs : List Segment) : String :=
  String.mk (List.intercalate (['\n']) (subtitleLinesOf segs))

/-- Modelled from the spec: the plain transcript — segment texts trimmed
and joined with a single space; timecodes never appear. -/
def plainTextOf (segs : List Segment) : String :=
  String.mk (List.intercalate ([' ']) (segs.map (fun s => trimChars s.text.data)))

/-- Derived, immutable result of the Formatter. -/
structure TranscriptResult where
  plainText : String
  subtitleText : String
deriving DecidableEq, Repr

/-- Modelled from the spec: the pure Formatter entry point
`format(segments) -> TranscriptResult`. -/
def format (segs : List Segment) : TranscriptResult :=
  ⟨plainTextOf segs, subtitleTextOf segs⟩

/-! ### An independent SRT parser, used to state the parse-back property -/

/-- Numeric value of a decimal digit character. -/
def digitVal (c : Char) : ℕ := c.toNat - 48

/-- Parse a 12-character `HH:MM:SS,mmm` timecode into milliseconds. -/
def parseTimecode (l : List Char) : Option ℕ :=
  match l with
  | [h1, h2, c1, m1, m2, c2, s1, s2, c3, x1, x2, x3] =>
    if c1 = ':' ∧ c2 = ':' ∧ c3 = ',' then
      some ((digitVal h1 * 10 + digitVal h2) * 3600000
        + (digitVal m1 * 10 + digitVal m2) * 60000
        + (digitVal s1 * 10 + digitVal s2) * 1000
        + (digitVal x1 * 100 + digitVal x2 * 10 + digitVal x3))
    else none
  | _ => none

/-- Parse a cue timing line `HH:MM:SS,mmm --> HH:MM:SS,mmm`. -/
def parseTimeline (l : List Char) : Option (ℕ × ℕ) :=
  if (l.drop 12).take 5 = (" --> ").data then
    match parseTimecode (l.take 12), parseTimecode (l.drop 17) with
    | some s, some e => some (s, e)
    | _, _ => none
  else none

/-- One cue as recovered by the parser: start/end in milliseconds plus the
text line. -/
structure PCue where
  startMs : ℕ
  endMs : ℕ
  text : List Char
deriving DecidableEq, Repr

/-- Projection of an emitted cue to its parser-visible part. -/
def pcueOf (c : Cue) : PCue := ⟨c.startMs, c.endMs, c.text⟩

/-- Parse one blank-line-delimited block: index line, timing line, text. -/
def parseBlock (b : List (List Char)) : Option PCue :=
  match b with
  | [_, tl, txt] =>
    match parseTimeline tl with
    | some (s, e) => some ⟨s, e, txt⟩
    | none => none
  | _ => none

/-- Split a subtitle document into its lines. -/
def srtLines (doc : String) : List (List Char) := doc.data.splitOn '\n'

/-- Split a line list into blank-line-delimited blocks. -/
def blankSplit (lines : List (List Char)) : List (List (List Char)) :=
  @List.splitOn (List Char) (instBEqOfDecidableEq) ([]) lines

/-- Parse a whole subtitle document back into cues. -/
def parseSRT (doc : String) : Option (List PCue) :=
  (blankSplit (srtLines doc)).mapM parseBlock

/-! ### Export Service -/

/-- Error taxonomy of the pipeline (spec §7). -/
inductive PipelineError where
  | unsupportedFormat
  | emptyAudio
  | sizeLimitExceeded
  | inference
  | timeout
  | invalidExportKind
deriving DecidableEq, Repr

/-- UTF-8 encoding of one character (RFC 3629 byte layout). -/
def utf8EncodeChar (c : Char) : List ℕ :=
  let n := c.toNat
  if n < 128 then [n]
  else if n < 2048 then [192 + n / 64, 128 + n % 64]
  else if n < 65536 then [224 + n / 4096, 128 + n / 64 % 64, 128 + n % 64]
  else [240 + n / 262144, 128 + n / 4096 % 64, 128 + n / 64 % 64, 128 + n % 64]

/-- UTF-8 encoding of a string as a byte list. -/
def utf8Bytes (s : String) : List ℕ := (s.data.map utf8EncodeChar).flatten

/-- Downloadable file payload: bytes plus filename/content-type metadata. -/
structure ExportPayload where
  bytes : List ℕ
  filename : String
  contentType : String
deriving DecidableEq, Repr

/-- Modelled from the spec: the stateless Export Service
`export(content, kind) -> (bytes, filename, content-type)`.  Only the kind
values `text` and `subtitle` are accepted. -/
def exportContent (content : String) (kind : String) : Except PipelineError ExportPayload :=
  if kind = "text" then
    Except.ok ⟨utf8Bytes content, "transcript.txt", "text/plain"⟩
  else if kind = "subtitle" then
    Except.ok ⟨utf8Bytes content, "subtitles.srt", "application/x-subrip"⟩
  else Except.error PipelineError.invalidExportKind

/-! ### Pipeline -/

/-- Raw uploaded/recorded audio: bytes plus a MIME/container hint. -/
structure AudioBlob where
  bytes : List ℕ
  mimeHint : String

/-- Decoded mono PCM audio at the model sample rate, with its duration. -/
structure NormalizedAudio where
  samples : List ℤ
  durationSec : ℚ

/-- Modelled from the spec: the Audio Normalizer.  The external decoder is
abstracted as a function `decode`; an unreadable container yields
`UnsupportedFormatError`, a zero decoded duration yields `EmptyAudioError`. -/
def normalize (decode : AudioBlob → Option NormalizedAudio) (blob : AudioBlob) :
    Except PipelineError NormalizedAudio :=
  match decode blob with
  | none => Except.error PipelineError.unsupportedFormat
  | some na =>
    if na.durationSec = 0 then Except.error PipelineError.emptyAudio else Except.ok na

/-- Modelled from the spec: the Recognition Adapter.  The model run is
abstracted as a function `model`; a raising model yields `InferenceError`,
and an empty segment sequence is signaled as an error by the Adapter rather
than passed to the Formatter. -/
def adapterTranscribe (model : NormalizedAudio → Option (List Segment))
    (na : NormalizedAudio) : Except PipelineError (List Segment) :=
  match model na with
  | none => Except.error PipelineError.inference
  | some [] => Except.error PipelineError.inference
  | some segs => Except.ok segs

/-- Modelled from the spec: one end-to-end pipeline run
(Normalizer → Recognition Adapter → Formatter). -/
def runPipeline (decode : AudioBlob → Option NormalizedAudio)
    (model : NormalizedAudio → Option (List Segment)) (blob : AudioBlob) :
    Except PipelineError TranscriptResult := do
  let na ← normalize decode blob
  let segs ← adapterTranscribe model na
  pure (format segs)

/-- Modelled from the spec: the human-readable message attached to each
error kind at the pipeline boundary. -/
def errorMessage : PipelineError → String
  | PipelineError.unsupportedFormat => "The audio container could not be identified or read."
  | PipelineError.emptyAudio => "The decoded audio has zero duration."
  | PipelineError.sizeLimitExceeded => "The uploaded audio exceeds the size limit."
  | PipelineError.inference => "The speech-recognition model failed on this input."
  | PipelineError.timeout => "The request timed out waiting for the model."
  | PipelineError.invalidExportKind => "The requested export kind is not supported."

/-! ### Frontend handlers, embedded from `App.js` -/

/-- One selected file as the upload handler sees it: name and MIME type. -/
structure FileInfo where
  name : String
  mime : String
deriving DecidableEq, Repr

/-- React component state of `App.js` (the `useState` hooks). -/
structure AppState where
  isRecording : Bool
  isTranscribing : Bool
  transcript : String
  srtTranscript : String
  error : String
  uploadedFile : Option FileInfo
deriving DecidableEq, Repr

/-- Error message set by `handleFileUpload` for a non-audio file. -/
def uploadErrorMsg : String := "Please upload a valid audio file (mp3, wav, m4a, etc.)"

/-- Character-level model of `file.type.startsWith('audio/')`. -/
def mimeIsAudio (t : String) : Bool := List.isPrefixOf (("audio/").data) t.data

/-- Embedded from `App.js` `handleFileUpload`: a missing file leaves the
state unchanged; a non-audio MIME type only sets the error message; an
audio file is stored and error/transcript/srtTranscript are cleared. -/
def handleFileUpload (s : AppState) (file : Option FileInfo) : AppState :=
  match file with
  | none => s
  | some f =>
    if mimeIsAudio f.mime = false then
      { s with error := uploadErrorMsg }
    else
      { s with uploadedFile := some f, error := "", transcript := "", srtTranscript := "" }

/-- Embedded from `App.js` `handleUploadTranscription`: the file submitted
for transcription (if any) is exactly the stored `uploadedFile`; with no
stored file an error message is set and nothing is submitted. -/
def handleUploadTranscription (s : AppState) : Option FileInfo × AppState :=
  match s.uploadedFile with
  | none => (none, { s with error := "Please select an audio file first" })
  | some f => (some f, s)

/-- Error message set by `transcribeFile` when the request fails. -/
def transcribeFailMsg : String :=
  "Failed to transcribe audio. Please check the backend server and try again."

/-- Success payload of the `/transcribe/` endpoint as `App.js` reads it. -/
structure ApiResponse where
  transcript : String
  srt_transcript : String
deriving DecidableEq, Repr

/-- Embedded from `App.js` `transcribeFile`: the state right after entry,
with the in-flight flag raised. -/
def transcribeFileDuring (s : AppState) : AppState := { s with isTranscribing := true }

/-- Embedded from `App.js` `transcribeFile`: the state after the request
settles.  On success both transcript fields are set from the response; on
failure only the error message is set; the `finally` block always lowers
the in-flight flag. -/
def transcribeFileRun (s : AppState) (resp : Except Unit ApiResponse) : AppState :=
  let s1 := transcribeFileDuring s
  let s2 := match resp with
    | Except.ok r => { s1 with transcript := r.transcript, srtTranscript := r.srt_transcript }
    | Except.error _ => { s1 with error := transcribeFailMsg }
  { s2 with isTranscribing := false }

/-- Embedded from `App.js` `handleDownloadText`: the filename attached to
the plain-text download. -/
def downloadTextFilename : String := "transcript.txt"

/-- Embedded from `App.js` `handleDownloadSRT`: the filename attached to
the subtitle download. -/
def downloadSrtFilename : String := "subtitles.srt"

/-- Check that the stored upload, if any, has an audio MIME type. -/
def audioOnly (s : AppState) : Bool :=
  match s.uploadedFile with
  | none => true
  | some f => mimeIsAudio f.mime

/-! ### Concrete fixtures used by claim witnesses and counterexamples -/

/-- Fixture: two ascending, non-overlapping segments where the first has
`start == end` and the second starts less than 1 ms after it. -/
def ceSegs : List Segment := [⟨1, 1, "a"⟩, ⟨2001 / 2000, 2, "b"⟩]

/-- Fixture: a well-separated two-segment sequence. -/
def okSegs : List Segment := [⟨0, 1, "hi"⟩, ⟨3 / 2, 2, "there"⟩]

/-- Fixture: an audio blob input. -/
def wavBlob : AudioBlob := ⟨[0], "audio/wav"⟩

/-- Fixture: a decoder that reports zero duration. -/
def silentDecoder : AudioBlob → Option NormalizedAudio := fun _ => some ⟨[], 0⟩

/-- Fixture: a decoder that reports a one-second decode. -/
def goodDecoder : AudioBlob → Option NormalizedAudio := fun _ => some ⟨[1], 1⟩

/-- Fixture: a model that always recognizes `okSegs`. -/
def constModel : NormalizedAudio → Option (List Segment) := fun _ => some okSegs

/-- Fixture: a frontend state with previous transcript content. -/
def testState : AppState := ⟨false, false, "old transcript", "old srt", "", none⟩

/-- Fixture: a non-audio file selection. -/
def videoFile : FileInfo := ⟨"clip.mp4", "video/mp4"⟩

/-- Fixture: an audio file selection. -/
def audioUpload : FileInfo := ⟨"clip.mp3", "audio/mpeg"⟩

/-! ## Helper lemmas -/

set_option maxRecDepth 10000

theorem padZero_two : ∀ n < 100, padZero 2 n = [Nat.digitChar (n / 10), Nat.digitChar (n % 10)] := by
  decide

theorem padZero_three : ∀ n < 1000,
    padZero 3 n = [Nat.digitChar (n / 100), Nat.digitChar (n / 10 % 10), Nat.digitChar (n % 10)] := by
  decide

theorem digitVal_digitChar : ∀ x < 10, digitVal (Nat.digitChar x) = x := by decide

theorem msOf_nonneg_floor {q : ℚ} (hq : 0 ≤ q) : (0 : ℤ) ≤ Int.floor (q * 1000) := by
  refine Int.floor_nonneg.mpr (by positivity)

theorem msOf_cast {q : ℚ} (hq : 0 ≤ q) : ((msOf q : ℤ) : ℚ) = ((Int.floor (q * 1000) : ℤ) : ℚ) := by
  unfold msOf
  rw [Int.toNat_of_nonneg (msOf_nonneg_floor hq)]

theorem msOf_le {q : ℚ} (hq : 0 ≤ q) : (msOf q : ℚ) ≤ q * 1000 := by
  have h1 : ((msOf q : ℤ) : ℚ) ≤ q * 1000 := by
    rw [msOf_cast hq]; exact Int.floor_le _
  simpa using h1

theorem lt_msOf_add_one {q : ℚ} (hq : 0 ≤ q) : q * 1000 < (msOf q : ℚ) + 1 := by
  have h1 : q * 1000 < ((msOf q : ℤ) : ℚ) + 1 := by
    rw [msOf_cast hq]; exact Int.lt_floor_add_one _
  simpa using h1

theorem msOf_mono {a b : ℚ} (h : a ≤ b) : msOf a ≤ msOf b := by
  unfold msOf
  exact Int.toNat_le_toNat (Int.floor_le_floor (by nlinarith))

theorem msOf_concrete_1 : msOf (37254 / 10 : ℚ) = 3725400 := by
  have h : Int.floor ((37254 / 10 : ℚ) * 1000) = 3725400 := by norm_num
  simp [msOf, h]

theorem msOf_concrete_2 : msOf (6 / 10000 : ℚ) = 0 := by
  have h : Int.floor ((6 / 10000 : ℚ) * 1000) = 0 := by norm_num
  simp [msOf, h]

/-! ## Claim C1 -/

/-- C1: for every non-negative seconds value, `format_timecode` produces
`HH:MM:SS,mmm` — hours, minutes, seconds zero-padded to 2 digits and
milliseconds to 3 digits — computed by truncation (the rendered millisecond
total never exceeds the exact value, and is within 1 ms below it); in
particular `format_timecode 3725.4 = "01:02:05,400"` and
`format_timecode 0.0006 = "00:00:00,000"`. -/
theorem claim_C1_format_timecode_truncates (q : ℚ) (hq : 0 ≤ q)
    (hb : msOf q < 360000000) :
    (∃ hh mm ss mss, mm < 60 ∧ ss < 60 ∧ mss < 1000 ∧
      hh * 3600000 + mm * 60000 + ss * 1000 + mss = msOf q ∧
      format_timecode q = String.mk (padZero 2 hh ++ [':'] ++ padZero 2 mm
        ++ [':'] ++ padZero 2 ss ++ [','] ++ padZero 3 mss) ∧
      (padZero 2 hh).length = 2 ∧ (padZero 2 mm).length = 2 ∧
      (padZero 2 ss).length = 2 ∧ (padZero 3 mss).length = 3) ∧
    (msOf q : ℚ) ≤ q * 1000 ∧ q * 1000 < (msOf q : ℚ) + 1 ∧
    format_timecode (37254 / 10 : ℚ) = "01:02:05,400" ∧
    format_timecode (6 / 10000 : ℚ) = "00:00:00,000" := by
  refine ⟨⟨msOf q / 3600000, msOf q / 60000 % 60, msOf q / 1000 % 60, msOf q % 1000,
      ?_, ?_, ?_, ?_, ?_, ?_, ?_, ?_, ?_⟩, msOf_le hq, lt_msOf_add_one hq, ?_, ?_⟩
  · omega
  · omega
  · omega
  · omega
  · rfl
  · rw [padZero_two (msOf q / 3600000) (by omega)]; rfl
  · rw [padZero_two (msOf q / 60000 % 60) (by omega)]; rfl
  · rw [padZero_two (msOf q / 1000 % 60) (by omega)]; rfl
  · rw [padZero_three (msOf q % 1000) (by omega)]; rfl
  · rw [format_timecode, msOf_concrete_1]; decide
  · rw [format_timecode, msOf_concrete_2]; decide

/-- Witness for C1 at the concrete input 3725.4 s. -/
theorem claim_C1_format_timecode_truncates_witness :
    ((0 : ℚ) ≤ 37254 / 10 ∧ msOf (37254 / 10 : ℚ) < 360000000) ∧
    ((∃ hh mm ss mss, mm < 60 ∧ ss < 60 ∧ mss < 1000 ∧
      hh * 3600000 + mm * 60000 + ss * 1000 + mss = msOf (37254 / 10 : ℚ) ∧
      format_timecode (37254 / 10 : ℚ) = String.mk (padZero 2 hh ++ [':'] ++ padZero 2 mm
        ++ [':'] ++ padZero 2 ss ++ [','] ++ padZero 3 mss) ∧
      (padZero 2 hh).length = 2 ∧ (padZero 2 mm).length = 2 ∧
      (padZero 2 ss).length = 2 ∧ (padZero 3 mss).length = 3) ∧
    (msOf (37254 / 10 : ℚ) : ℚ) ≤ (37254 / 10 : ℚ) * 1000 ∧
    (37254 / 10 : ℚ) * 1000 < (msOf (37254 / 10 : ℚ) : ℚ) + 1 ∧
    format_timecode (37254 / 10 : ℚ) = "01:02:05,400" ∧
    format_timecode (6 / 10000 : ℚ) = "00:00:00,000") :=
  ⟨⟨by norm_num, by rw [msOf_concrete_1]; omega⟩,
   claim_C1_format_timecode_truncates (37254 / 10 : ℚ) (by norm_num)
     (by rw [msOf_concrete_1]; omega)⟩

/-! ## Claim C2 -/

/-- C2: a segment whose model-reported start equals its end is rendered
with its end timecode clamped to start + 1 ms, so the rendered cue
satisfies start < end. -/
theorem claim_C2_zero_duration_clamped (i : ℕ) (seg : Segment)
    (h : seg.startSec = seg.endSec) :
    (cueOf i seg).endMs = (cueOf i seg).startMs + 1 ∧
    (cueOf i seg).startMs < (cueOf i seg).endMs := by
  simp [cueOf, h]

/-- Witness for C2 at a concrete zero-duration segment. -/
theorem claim_C2_zero_duration_clamped_witness :
    (Segment.mk 5 5 "x").startSec = (Segment.mk 5 5 "x").endSec ∧
    ((cueOf 0 (Segment.mk 5 5 "x")).endMs = (cueOf 0 (Segment.mk 5 5 "x")).startMs + 1 ∧
     (cueOf 0 (Segment.mk 5 5 "x")).startMs < (cueOf 0 (Segment.mk 5 5 "x")).endMs) :=
  ⟨rfl, claim_C2_zero_duration_clamped 0 (Segment.mk 5 5 "x") rfl⟩

/-! ## Claim C4 -/

theorem formatCues_map_text (segs : List Segment) :
    (formatCues segs).map Cue.text = segs.map (fun s => trimChars s.text.data) := by
  unfold formatCues
  rw [List.map_map]
  show segs.enum.map ((fun s => trimChars s.text.data) ∘ Prod.snd) = _
  rw [← List.map_map, List.enum_map_snd]

/-- C4: the two fields of a TranscriptResult are consistent — `plainText`
is exactly the cue texts of the subtitle document joined by the single-space
separator — and `plainText` depends only on the segment texts, never on the
timecodes. -/
theorem claim_C4_transcript_consistency (segs : List Segment) (hne : segs ≠ []) :
    (format segs).plainText
      = String.mk (List.intercalate ([' ']) ((formatCues segs).map Cue.text)) ∧
    (∀ segs₂ : List Segment, segs₂.map Segment.text = segs.map Segment.text →
      (format segs₂).plainText = (format segs).plainText) := by
  constructor
  · rw [formatCues_map_text]; rfl
  · intro segs₂ h
    show plainTextOf segs₂ = plainTextOf segs
    unfold plainTextOf
    have e : ∀ l : List Segment, l.map (fun s => trimChars s.text.data)
        = (l.map Segment.text).map (fun t => trimChars t.data) := by
      intro l; rw [List.map_map]; rfl
    rw [e, e, h]

/-- Witness for C4 at a concrete two-segment sequence. -/
theorem claim_C4_transcript_consistency_witness :
    okSegs ≠ [] ∧
    ((format okSegs).plainText
      = String.mk (List.intercalate ([' ']) ((formatCues okSegs).map Cue.text)) ∧
    (∀ segs₂ : List Segment, segs₂.map Segment.text = okSegs.map Segment.text →
      (format segs₂).plainText = (format okSegs).plainText)) :=
  ⟨by simp [okSegs], claim_C4_transcript_consistency okSegs (by simp [okSegs])⟩

/-! ## Claim C5 -/

/-- C5: the Formatter emits exactly one cue per input segment, and the
i-th emitted cue carries the 1-based consecutive index i + 1. -/
theorem claim_C5_cue_per_segment (segs : List Segment) (hne : segs ≠ []) :
    (formatCues segs).length = segs.length ∧
    ∀ i (hi : i < (formatCues segs).length),
      ((formatCues segs).get ⟨i, hi⟩).index = i + 1 := by
  constructor
  · simp [formatCues]
  · intro i hi
    rw [List.get_eq_getElem]
    simp [formatCues, List.getElem_map, List.getElem_enum, cueOf]

/-- Witness for C5 at a concrete two-segment sequence. -/
theorem claim_C5_cue_per_segment_witness :
    okSegs ≠ [] ∧
    ((formatCues okSegs).length = okSegs.length ∧
    ∀ i (hi : i < (formatCues okSegs).length),
      ((formatCues okSegs).get ⟨i, hi⟩).index = i + 1) :=
  ⟨by simp [okSegs], claim_C5_cue_per_segment okSegs (by simp [okSegs])⟩

/-! ## Claim C6 -/

/-- C6: the Export Service returns the UTF-8 bytes of the content verbatim,
with filename `transcript.txt` / content-type `text/plain` for kind `text`
and filename `subtitles.srt` / a subtitle content-type for kind `subtitle`;
it succeeds exactly on those two kinds and fails on every other kind with
`InvalidExportKindError`; the filenames agree with the ones the frontend
download handlers attach. -/
theorem claim_C6_export_service (content : String) :
    exportContent content "text"
      = Except.ok ⟨utf8Bytes content, "transcript.txt", "text/plain"⟩ ∧
    exportContent content "subtitle"
      = Except.ok ⟨utf8Bytes content, "subtitles.srt", "application/x-subrip"⟩ ∧
    (∀ kind, kind ≠ "text" → kind ≠ "subtitle" →
      exportContent content kind = Except.error PipelineError.invalidExportKind) ∧
    (∀ kind, (∃ p, exportContent content kind = Except.ok p) ↔
      kind = "text" ∨ kind = "subtitle") ∧
    utf8Bytes ("hello") = [104, 101, 108, 108, 111] ∧
    ("transcript.txt" = downloadTextFilename ∧ "subtitles.srt" = downloadSrtFilename) := by
  refine ⟨?_, ?_, ?_, ?_, by decide, rfl, rfl⟩
  · unfold exportContent
    rw [if_pos rfl]
  · unfold exportContent
    rw [if_neg (by decide), if_pos rfl]
  · intro kind h1 h2
    simp [exportContent, h1, h2]
  · intro kind
    constructor
    · intro ⟨p, hp⟩
      by_cases h1 : kind = "text"
      · exact Or.inl h1
      by_cases h2 : kind = "subtitle"
      · exact Or.inr h2
      · simp [exportContent, h1, h2] at hp
    · rintro (rfl | rfl)
      · exact ⟨⟨utf8Bytes content, "transcript.txt", "text/plain"⟩,
          by unfold exportContent; rw [if_pos rfl]⟩
      · exact ⟨⟨utf8Bytes content, "subtitles.srt", "application/x-subrip"⟩,
          by unfold exportContent; rw [if_neg (by decide), if_pos rfl]⟩

/-- Witness for C6: an invalid kind fails, and kind `text` on `"hello"`
returns the bytes of `"hello"` with filename `transcript.txt`. -/
theorem claim_C6_export_service_witness :
    (("json" : String) ≠ "text" ∧ ("json" : String) ≠ "subtitle") ∧
    exportContent ("hello") "json" = Except.error PipelineError.invalidExportKind ∧
    exportContent ("hello") "text"
      = Except.ok ⟨[104, 101, 108, 108, 111], "transcript.txt", "text/plain"⟩ := by
  refine ⟨⟨by decide, by decide⟩,
    (claim_C6_export_service ("hello")).2.2.1 ("json") (by decide) (by decide), ?_⟩
  have h1 := (claim_C6_export_service ("hello")).1
  have h2 := (claim_C6_export_service ("hello")).2.2.2.2.1
  rw [h1, h2]

/-! ## Claims C7 and C8 -/

theorem except_bind_ok {ε α β : Type} (x : Except ε α) (f : α → Except ε β) (r : β) :
    (x >>= f) = Except.ok r ↔ ∃ a, x = Except.ok a ∧ f a = Except.ok r := by
  cases x <;> simp [Bind.bind, Except.bind]

theorem normalize_eq_ok {decode : AudioBlob → Option NormalizedAudio} {blob : AudioBlob}
    {na : NormalizedAudio} :
    normalize decode blob = Except.ok na ↔ decode blob = some na ∧ na.durationSec ≠ 0 := by
  unfold normalize
  cases hd : decode blob with
  | none =>
    constructor
    · intro h; exact Except.noConfusion h
    · rintro ⟨h1, _⟩; exact Option.noConfusion h1
  | some nb =>
    show (if nb.durationSec = 0 then Except.error PipelineError.emptyAudio else Except.ok nb)
        = Except.ok na ↔ some nb = some na ∧ na.durationSec ≠ 0
    by_cases hz : nb.durationSec = 0
    · rw [if_pos hz]
      constructor
      · intro h; exact Except.noConfusion h
      · rintro ⟨h1, h2⟩; rw [Option.some_inj] at h1; subst h1; exact absurd hz h2
    · rw [if_neg hz]
      constructor
      · intro h
        have hna : nb = na := by injection h
        subst hna; exact ⟨rfl, hz⟩
      · rintro ⟨h1, _⟩; rw [Option.some_inj] at h1; subst h1; rfl

theorem adapterTranscribe_eq_ok {model : NormalizedAudio → Option (List Segment)}
    {na : NormalizedAudio} {segs : List Segment} :
    adapterTranscribe model na = Except.ok segs ↔ model na = some segs ∧ segs ≠ [] := by
  unfold adapterTranscribe
  cases hm : model na with
  | none =>
    constructor
    · intro h; exact Except.noConfusion h
    · rintro ⟨h1, _⟩; exact Option.noConfusion h1
  | some l =>
    cases l with
    | nil =>
      show (Except.error PipelineError.inference : Except PipelineError (List Segment))
          = Except.ok segs ↔ some ([] : List Segment) = some segs ∧ segs ≠ []
      constructor
      · intro h; exact Except.noConfusion h
      · rintro ⟨h1, h2⟩
        rw [Option.some_inj] at h1
        subst h1
        exact absurd rfl h2
    | cons a as =>
      show (Except.ok (a :: as) : Except PipelineError (List Segment))
          = Except.ok segs ↔ some (a :: as) = some segs ∧ segs ≠ []
      constructor
      · intro h
        have hs : a :: as = segs := by injection h
        subst hs; exact ⟨rfl, by simp⟩
      · rintro ⟨h1, _⟩; rw [Option.some_inj] at h1; subst h1; rfl

theorem runPipeline_ok {decode : AudioBlob → Option NormalizedAudio}
    {model : NormalizedAudio → Option (List Segment)} {blob : AudioBlob}
    {r : TranscriptResult} (h : runPipeline decode model blob = Except.ok r) :
    ∃ na segs, decode blob = some na ∧ na.durationSec ≠ 0 ∧
      model na = some segs ∧ segs ≠ [] ∧ r = format segs := by
  unfold runPipeline at h
  rw [except_bind_ok] at h
  obtain ⟨na, hna, h⟩ := h
  rw [except_bind_ok] at h
  obtain ⟨segs, hsegs, h⟩ := h
  simp only [pure, Except.pure, Except.ok.injEq] at h
  rw [normalize_eq_ok] at hna
  rw [adapterTranscribe_eq_ok] at hsegs
  exact ⟨na, segs, hna.1, hna.2, hsegs.1, hsegs.2, h.symm⟩

/-- C7: a decoded input of zero duration makes the pipeline fail with
`EmptyAudioError`, and every successful pipeline run comes from a
non-empty segment list. -/
theorem claim_C7_empty_audio_error (decode : AudioBlob → Option NormalizedAudio)
    (model : NormalizedAudio → Option (List Segment)) (blob : AudioBlob) :
    (∀ na, decode blob = some na → na.durationSec = 0 →
      runPipeline decode model blob = Except.error PipelineError.emptyAudio) ∧
    (∀ r, runPipeline decode model blob = Except.ok r →
      ∃ na segs, decode blob = some na ∧ na.durationSec ≠ 0 ∧
        model na = some segs ∧ segs ≠ [] ∧ r = format segs) := by
  constructor
  · intro na h hd
    have hn : normalize decode blob = Except.error PipelineError.emptyAudio := by
      unfold normalize
      rw [h]
      show (if na.durationSec = 0 then Except.error PipelineError.emptyAudio else Except.ok na)
        = Except.error PipelineError.emptyAudio
      rw [if_pos hd]
    unfold runPipeline
    rw [hn]
    rfl
  · intro r h
    exact runPipeline_ok h

/-- Witness for C7: a zero-duration decode fails with `EmptyAudioError`. -/
theorem claim_C7_empty_audio_error_witness :
    silentDecoder wavBlob = some ⟨[], 0⟩ ∧
    (NormalizedAudio.mk [] 0).durationSec = 0 ∧
    runPipeline silentDecoder constModel wavBlob
      = Except.error PipelineError.emptyAudio :=
  ⟨rfl, rfl,
    (claim_C7_empty_audio_error silentDecoder constModel wavBlob).1
      (NormalizedAudio.mk [] 0) rfl rfl⟩

/-- C8: at the pipeline boundary every run is either a success carrying
both transcript fields built from one segment list, or a failure carrying
an error kind with a non-empty human-readable message — never both. -/
theorem claim_C8_boundary_exclusive (decode : AudioBlob → Option NormalizedAudio)
    (model : NormalizedAudio → Option (List Segment)) (blob : AudioBlob) :
    ((∃ r, runPipeline decode model blob = Except.ok r) ∨
      (∃ e, runPipeline decode model blob = Except.error e ∧ errorMessage e ≠ "")) ∧
    (¬ ((∃ r, runPipeline decode model blob = Except.ok r) ∧
        (∃ e, runPipeline decode model blob = Except.error e))) ∧
    (∀ r, runPipeline decode model blob = Except.ok r →
      ∃ segs, segs ≠ [] ∧ r = TranscriptResult.mk (plainTextOf segs) (subtitleTextOf segs)) := by
  refine ⟨?_, ?_, ?_⟩
  · cases h : runPipeline decode model blob with
    | ok r => exact Or.inl ⟨r, rfl⟩
    | error e => exact Or.inr ⟨e, rfl, by cases e <;> decide⟩
  · rintro ⟨⟨r, hr⟩, ⟨e, he⟩⟩
    rw [hr] at he
    exact Except.noConfusion he
  · intro r h
    obtain ⟨na, segs, _, _, _, hne, hr⟩ := runPipeline_ok h
    exact ⟨segs, hne, hr⟩

/-- Witness for C8 on a successful concrete run. -/
theorem claim_C8_boundary_exclusive_witness :
    runPipeline goodDecoder constModel wavBlob = Except.ok (format okSegs) ∧
    (∃ segs, segs ≠ [] ∧
      format okSegs = TranscriptResult.mk (plainTextOf segs) (subtitleTextOf segs)) := by
  have hrun : runPipeline goodDecoder constModel wavBlob = Except.ok (format okSegs) := by
    have h1 : normalize goodDecoder wavBlob = Except.ok (NormalizedAudio.mk [1] 1) := by
      simp [normalize, goodDecoder]
    have h2 : adapterTranscribe constModel (NormalizedAudio.mk [1] 1) = Except.ok okSegs := by
      simp [adapterTranscribe, constModel, okSegs]
    unfold runPipeline
    rw [h1]
    simp only [Bind.bind, Except.bind]
    rw [h2]
    rfl
  exact ⟨hrun, (claim_C8_boundary_exclusive goodDecoder constModel wavBlob).2.2 _ hrun⟩

/-! ## Claim C9 -/

/-- C9: `handleFileUpload` rejects a non-audio MIME type by only setting
the error message (the stored upload is untouched), accepts an audio file
by storing it and clearing error/transcript/srtTranscript, keeps the
audio-only invariant on the stored upload, and the file submitted by
`handleUploadTranscription` is always the stored (hence audio-typed)
upload. -/
theorem claim_C9_upload_guard (s : AppState) (f : FileInfo) :
    (mimeIsAudio f.mime = false →
      handleFileUpload s (some f) = { s with error := uploadErrorMsg }) ∧
    (mimeIsAudio f.mime = true →
      handleFileUpload s (some f)
        = { s with uploadedFile := some f, error := "", transcript := "", srtTranscript := "" }) ∧
    (audioOnly s = true → audioOnly (handleFileUpload s (some f)) = true) ∧
    (audioOnly s = true → ∀ g, (handleUploadTranscription s).1 = some g →
      mimeIsAudio g.mime = true) := by
  refine ⟨?_, ?_, ?_, ?_⟩
  · intro hm; simp [handleFileUpload, hm]
  · intro hm; simp [handleFileUpload, hm]
  · intro ha
    cases hm : mimeIsAudio f.mime with
    | false =>
      simpa [handleFileUpload, hm, audioOnly] using ha
    | true =>
      simp [handleFileUpload, hm, audioOnly]
  · intro ha g hg
    unfold handleUploadTranscription at hg
    cases hu : s.uploadedFile with
    | none => rw [hu] at hg; simp at hg
    | some u =>
      rw [hu] at hg
      simp at hg
      subst hg
      simpa [audioOnly, hu] using ha

/-- Witness for C9: a video file is rejected with the error message and an
audio file is stored while previous transcript state is cleared. -/
theorem claim_C9_upload_guard_witness :
    mimeIsAudio videoFile.mime = false ∧
    handleFileUpload testState (some videoFile) = { testState with error := uploadErrorMsg } ∧
    mimeIsAudio audioUpload.mime = true ∧
    handleFileUpload testState (some audioUpload)
      = { testState with
          uploadedFile := some audioUpload, error := "",
          transcript := "", srtTranscript := "" } :=
  ⟨by decide,
   (claim_C9_upload_guard testState videoFile).1 (by decide),
   by decide,
   (claim_C9_upload_guard testState audioUpload).2.1 (by decide)⟩

/-! ## Claim C10 -/

/-- C10: `transcribeFile` raises the in-flight flag on entry and lowers it
when the call settles, on success and failure alike; on failure only the
error message changes — transcript and srtTranscript keep their previous
values — while on success both transcript fields come from the response. -/
theorem claim_C10_transcribe_lifecycle (s : AppState) (resp : Except Unit ApiResponse) :
    (transcribeFileDuring s).isTranscribing = true ∧
    (transcribeFileRun s resp).isTranscribing = false ∧
    (transcribeFileRun s (Except.error ())).transcript = s.transcript ∧
    (transcribeFileRun s (Except.error ())).srtTranscript = s.srtTranscript ∧
    (transcribeFileRun s (Except.error ())).error = transcribeFailMsg ∧
    (transcribeFileRun s (Except.error ())).uploadedFile = s.uploadedFile ∧
    (transcribeFileRun s (Except.error ())).isRecording = s.isRecording ∧
    (∀ r, (transcribeFileRun s (Except.ok r)).transcript = r.transcript ∧
      (transcribeFileRun s (Except.ok r)).srtTranscript = r.srt_transcript) := by
  refine ⟨rfl, ?_, rfl, rfl, rfl, rfl, rfl, fun r => ⟨rfl, rfl⟩⟩
  cases resp <;> rfl

/-! ## Claim C3: machinery for the parse-back property -/

theorem digitChar_ne_newline (x : ℕ) : Nat.digitChar x ≠ '\n' := by
  rcases Nat.lt_or_ge x 16 with h | h
  · have hb : ∀ y, y < 16 → Nat.digitChar y ≠ '\n' := by decide
    exact hb x h
  · unfold Nat.digitChar
    iterate 16 rw [if_neg (by omega)]
    decide

theorem toDigitsCore_length_le (b : ℕ) :
    ∀ (fuel n : ℕ) (ds : List Char), ds.length ≤ (Nat.toDigitsCore b fuel n ds).length := by
  intro fuel
  induction fuel with
  | zero => intro n ds; exact Nat.le_refl _
  | succ fuel ih =>
    intro n ds
    rw [Nat.toDigitsCore]
    by_cases hz : n / b = 0
    · rw [if_pos hz]
      simp
    · rw [if_neg hz]
      have := ih (n / b) (Nat.digitChar (n % b) :: ds)
      simp at this
      omega

theorem toDigitsCore_ne_nil (b fuel n : ℕ) (ds : List Char) :
    Nat.toDigitsCore b (fuel + 1) n ds ≠ [] := by
  rw [Nat.toDigitsCore]
  by_cases hz : n / b = 0
  · rw [if_pos hz]; exact List.cons_ne_nil _ _
  · rw [if_neg hz]
    have h1 := toDigitsCore_length_le b fuel (n / b) (Nat.digitChar (n % b) :: ds)
    have h2 : 0 < (Nat.toDigitsCore b fuel (n / b) (Nat.digitChar (n % b) :: ds)).length := by
      simp at h1; omega
    exact List.length_pos.mp h2

theorem toDigitsCore_chars (b : ℕ) :
    ∀ (fuel n : ℕ) (ds : List Char) (c : Char), c ∈ Nat.toDigitsCore b fuel n ds →
      (∃ x, c = Nat.digitChar x) ∨ c ∈ ds := by
  intro fuel
  induction fuel with
  | zero => intro n ds c hc; exact Or.inr hc
  | succ fuel ih =>
    intro n ds c hc
    rw [Nat.toDigitsCore] at hc
    by_cases hz : n / b = 0
    · rw [if_pos hz] at hc
      rcases List.mem_cons.mp hc with h | h
      · exact Or.inl ⟨n % b, h⟩
      · exact Or.inr h
    · rw [if_neg hz] at hc
      rcases ih (n / b) (Nat.digitChar (n % b) :: ds) c hc with h | h
      · exact Or.inl h
      · rcases List.mem_cons.mp h with h2 | h2
        · exact Or.inl ⟨n % b, h2⟩
        · exact Or.inr h2

theorem repr_data_ne_nil (n : ℕ) : (Nat.repr n).data ≠ [] :=
  toDigitsCore_ne_nil 10 n n []

theorem repr_data_no_newline (n : ℕ) : '\n' ∉ (Nat.repr n).data := by
  intro hc
  rcases toDigitsCore_chars 10 (n + 1) n [] '\n' hc with ⟨x, hx⟩ | h
  · exact digitChar_ne_newline x hx.symm
  · exact List.not_mem_nil _ h

theorem padZero_ne_nil (w n : ℕ) : padZero w n ≠ [] := by
  unfold padZero
  intro h
  exact repr_data_ne_nil n (List.append_eq_nil.mp h).2

theorem padZero_no_newline (w n : ℕ) : '\n' ∉ padZero w n := by
  unfold padZero
  intro h
  rcases List.mem_append.mp h with h1 | h1
  · have := List.eq_of_mem_replicate h1
    exact absurd this (by decide)
  · exact repr_data_no_newline n h1

theorem renderMs_ne_nil (t : ℕ) : renderMs t ≠ [] := by
  unfold renderMs
  intro h
  have := (List.append_eq_nil.mp h).1
  have h2 := (List.append_eq_nil.mp this).1
  have h3 := (List.append_eq_nil.mp h2).1
  have h4 := (List.append_eq_nil.mp h3).1
  have h5 := (List.append_eq_nil.mp h4).1
  have h6 := (List.append_eq_nil.mp h5).1
  exact padZero_ne_nil 2 (t / 3600000) h6

theorem renderMs_no_newline (t : ℕ) : '\n' ∉ renderMs t := by
  unfold renderMs
  intro h
  rcases List.mem_append.mp h with h1 | h1
  rotate_left
  · exact padZero_no_newline 3 (t % 1000) h1
  rcases List.mem_append.mp h1 with h2 | h2
  rotate_left
  · simp at h2
  rcases List.mem_append.mp h2 with h3 | h3
  rotate_left
  · exact padZero_no_newline 2 (t / 1000 % 60) h3
  rcases List.mem_append.mp h3 with h4 | h4
  rotate_left
  · simp at h4
  rcases List.mem_append.mp h4 with h5 | h5
  rotate_left
  · exact padZero_no_newline 2 (t / 60000 % 60) h5
  rcases List.mem_append.mp h5 with h6 | h6
  rotate_left
  · simp at h6
  · exact padZero_no_newline 2 (t / 3600000) h6

theorem renderMs_explicit (t : ℕ) (h : t < 360000000) :
    renderMs t = [Nat.digitChar (t / 3600000 / 10), Nat.digitChar (t / 3600000 % 10), ':',
      Nat.digitChar (t / 60000 % 60 / 10), Nat.digitChar (t / 60000 % 60 % 10), ':',
      Nat.digitChar (t / 1000 % 60 / 10), Nat.digitChar (t / 1000 % 60 % 10), ',',
      Nat.digitChar (t % 1000 / 100), Nat.digitChar (t % 1000 / 10 % 10),
      Nat.digitChar (t % 1000 % 10)] := by
  unfold renderMs
  rw [padZero_two (t / 3600000) (by omega), padZero_two (t / 60000 % 60) (by omega),
    padZero_two (t / 1000 % 60) (by omega), padZero_three (t % 1000) (by omega)]
  rfl

theorem renderMs_length (t : ℕ) (h : t < 360000000) : (renderMs t).length = 12 := by
  rw [renderMs_explicit t h]
  rfl

theorem parseTimecode_renderMs (t : ℕ) (h : t < 360000000) :
    parseTimecode (renderMs t) = some t := by
  rw [renderMs_explicit t h]
  unfold parseTimecode
  dsimp only
  rw [if_pos ⟨rfl, rfl, rfl⟩]
  rw [digitVal_digitChar (t / 3600000 / 10) (by omega),
    digitVal_digitChar (t / 3600000 % 10) (by omega),
    digitVal_digitChar (t / 60000 % 60 / 10) (by omega),
    digitVal_digitChar (t / 60000 % 60 % 10) (by omega),
    digitVal_digitChar (t / 1000 % 60 / 10) (by omega),
    digitVal_digitChar (t / 1000 % 60 % 10) (by omega),
    digitVal_digitChar (t % 1000 / 100) (by omega),
    digitVal_digitChar (t % 1000 / 10 % 10) (by omega),
    digitVal_digitChar (t % 1000 % 10) (by omega)]
  rw [Option.some_inj]
  omega

theorem parseTimeline_render (s e : ℕ) (hs : s < 360000000) (he : e < 360000000) :
    parseTimeline (renderMs s ++ (" --> ").data ++ renderMs e) = some (s, e) := by
  have hls : (renderMs s).length = 12 := renderMs_length s hs
  have h5 : ((" --> ").data).length = 5 := rfl
  have e1 : (renderMs s ++ (" --> ").data ++ renderMs e).take 12 = renderMs s := by
    rw [List.append_assoc, ← hls, List.take_left]
  have e2 : ((renderMs s ++ (" --> ").data ++ renderMs e).drop 12).take 5 = (" --> ").data := by
    rw [List.append_assoc, ← hls, List.drop_left, ← h5, List.take_left]
  have e3 : (renderMs s ++ (" --> ").data ++ renderMs e).drop 17 = renderMs e := by
    rw [List.append_assoc]
    have h17 : (17 : ℕ) = 12 + 5 := rfl
    rw [h17, ← List.drop_drop, ← hls, List.drop_left, ← h5, List.drop_left]
  unfold parseTimeline
  rw [e1, e2, e3, if_pos rfl, parseTimecode_renderMs s hs, parseTimecode_renderMs e he]

theorem parseBlock_renderCue (c : Cue) (hs : c.startMs < 360000000)
    (he : c.endMs < 360000000) :
    parseBlock (renderCue c) = some (pcueOf c) := by
  unfold renderCue parseBlock
  dsimp only
  rw [parseTimeline_render c.startMs c.endMs hs he]
  rfl

theorem mem_intersperse {α : Type} {sep x : α} {l : List α}
    (h : x ∈ List.intersperse sep l) : x = sep ∨ x ∈ l := by
  induction l with
  | nil => simp [List.intersperse] at h
  | cons a t ih =>
    cases t with
    | nil =>
      simp [List.intersperse] at h
      exact Or.inr (by simp [h])
    | cons b t2 =>
      rw [List.intersperse_cons_cons] at h
      rcases List.mem_cons.mp h with h1 | h1
      · exact Or.inr (by simp [h1])
      rcases List.mem_cons.mp h1 with h2 | h2
      · exact Or.inl h2
      · rcases ih h2 with h3 | h3
        · exact Or.inl h3
        · exact Or.inr (List.mem_cons_of_mem _ h3)

theorem mem_intercalate_blank {l : List Char} {blocks : List (List (List Char))}
    (h : l ∈ List.intercalate [[]] blocks) : l = [] ∨ ∃ b ∈ blocks, l ∈ b := by
  unfold List.intercalate at h
  rcases List.mem_flatten.mp h with ⟨chunk, hc, hl⟩
  rcases mem_intersperse hc with h1 | h1
  · rw [h1] at hl
    simp at hl
    exact Or.inl hl
  · exact Or.inr ⟨chunk, h1, hl⟩

theorem intercalate_blank_ne_nil {b : List (List Char)} {bs : List (List (List Char))}
    (hb : b ≠ []) : List.intercalate [[]] (b :: bs) ≠ [] := by
  unfold List.intercalate
  cases bs with
  | nil => simpa [List.intersperse] using hb
  | cons b2 bs2 =>
    rw [List.intersperse_cons_cons, List.flatten_cons]
    intro h
    exact hb (List.append_eq_nil.mp h).1

theorem subtitleLines_ne_nil (segs : List Segment) (hne : segs ≠ []) :
    subtitleLinesOf segs ≠ [] := by
  unfold subtitleLinesOf
  cases hc : formatCues segs with
  | nil =>
    exfalso
    have hlen : segs.length = 0 := by
      have h1 := congrArg List.length hc
      simpa [formatCues] using h1
    exact hne (List.eq_nil_of_length_eq_zero hlen)
  | cons c cs =>
    rw [List.map_cons]
    exact intercalate_blank_ne_nil (by unfold renderCue; exact List.cons_ne_nil _ _)

theorem renderCue_lines (c : Cue) (htn : c.text ≠ []) (htnl : '\n' ∉ c.text) :
    ∀ l ∈ renderCue c, l ≠ [] ∧ '\n' ∉ l := by
  intro l hl
  unfold renderCue at hl
  rcases List.mem_cons.mp hl with rfl | hl
  · exact ⟨repr_data_ne_nil _, repr_data_no_newline _⟩
  · rcases List.mem_cons.mp hl with rfl | hl
    · constructor
      · intro h
        have h1 := (List.append_eq_nil.mp h).1
        have h2 := (List.append_eq_nil.mp h1).1
        exact renderMs_ne_nil _ h2
      · intro h
        rcases List.mem_append.mp h with h1 | h1
        · rcases List.mem_append.mp h1 with h2 | h2
          · exact renderMs_no_newline _ h2
          · exact absurd h2 (by decide)
        · exact renderMs_no_newline _ h1
    · rcases List.mem_cons.mp hl with rfl | hl
      · exact ⟨htn, htnl⟩
      · exact absurd hl (List.not_mem_nil _)

theorem formatCues_mem {segs : List Segment} {c : Cue} (hc : c ∈ formatCues segs) :
    ∃ i s, s ∈ segs ∧ c = cueOf i s := by
  unfold formatCues at hc
  rcases List.mem_map.mp hc with ⟨p, hp, hc2⟩
  refine ⟨p.1, p.2, ?_, hc2.symm⟩
  rw [List.mem_enum_iff_getElem?] at hp
  exact List.getElem?_mem hp

theorem mapM_parseBlock (cs : List Cue)
    (h : ∀ c ∈ cs, parseBlock (renderCue c) = some (pcueOf c)) :
    (cs.map renderCue).mapM parseBlock = some (cs.map pcueOf) := by
  induction cs with
  | nil => rfl
  | cons c cs ih =>
    rw [List.map_cons, List.mapM_cons, h c (by simp),
      ih (fun c2 hc2 => h c2 (by simp [hc2]))]
    rfl

theorem formatCues_facts (segs : List Segment)
    (htext : ∀ s ∈ segs, trimChars s.text.data ≠ [] ∧ '\n' ∉ trimChars s.text.data)
    (hms : ∀ s ∈ segs, msOf s.startSec < 360000000 ∧ msOf s.endSec + 1 < 360000000) :
    ∀ c ∈ formatCues segs, c.text ≠ [] ∧ '\n' ∉ c.text ∧
      c.startMs < 360000000 ∧ c.endMs < 360000000 := by
  intro c hc
  obtain ⟨i, s, hs, rfl⟩ := formatCues_mem hc
  refine ⟨(htext s hs).1, (htext s hs).2, (hms s hs).1, ?_⟩
  show (if s.startSec = s.endSec then msOf s.startSec + 1 else msOf s.endSec) < 360000000
  by_cases hq : s.startSec = s.endSec
  · rw [if_pos hq, hq]
    have := (hms s hs).2
    omega
  · rw [if_neg hq]
    have := (hms s hs).2
    omega

theorem parseSRT_format (segs : List Segment) (hne : segs ≠ [])
    (htext : ∀ s ∈ segs, trimChars s.text.data ≠ [] ∧ '\n' ∉ trimChars s.text.data)
    (hms : ∀ s ∈ segs, msOf s.startSec < 360000000 ∧ msOf s.endSec + 1 < 360000000) :
    parseSRT (subtitleTextOf segs) = some ((formatCues segs).map pcueOf) := by
  have hcf := formatCues_facts segs htext hms
  have hlines : ∀ l ∈ subtitleLinesOf segs, '\n' ∉ l := by
    intro l hl
    unfold subtitleLinesOf at hl
    rcases mem_intercalate_blank hl with rfl | ⟨b, hb, hlb⟩
    · exact List.not_mem_nil _
    · rcases List.mem_map.mp hb with ⟨c, hc, rfl⟩
      obtain ⟨h1, h2, _, _⟩ := hcf c hc
      exact ((renderCue_lines c h1 h2) l hlb).2
  have hstep1 : srtLines (subtitleTextOf segs) = subtitleLinesOf segs := by
    show (List.intercalate (['\n']) (subtitleLinesOf segs)).splitOn '\n' = subtitleLinesOf segs
    exact List.splitOn_intercalate _ '\n' hlines (subtitleLines_ne_nil segs hne)
  have hblocksne : (formatCues segs).map renderCue ≠ [] := by
    intro h
    have h0 : formatCues segs = [] := List.map_eq_nil_iff.mp h
    have hlen : segs.length = 0 := by
      have h1 := congrArg List.length h0
      simpa [formatCues] using h1
    exact hne (List.eq_nil_of_length_eq_zero hlen)
  have hstep2 : blankSplit (subtitleLinesOf segs) = (formatCues segs).map renderCue := by
    unfold subtitleLinesOf blankSplit
    refine List.splitOn_intercalate _ ([]) ?_ hblocksne
    intro b hb
    rcases List.mem_map.mp hb with ⟨c, hc, rfl⟩
    obtain ⟨h1, h2, _, _⟩ := hcf c hc
    intro hmem
    exact ((renderCue_lines c h1 h2) [] hmem).1 rfl
  unfold parseSRT
  rw [hstep1, hstep2]
  refine mapM_parseBlock (formatCues segs) ?_
  intro c hc
  obtain ⟨_, _, h3, h4⟩ := hcf c hc
  exact parseBlock_renderCue c h3 h4

theorem parsed_getElem (segs : List Segment) (i : ℕ) :
    ((formatCues segs).map pcueOf)[i]? = (segs[i]?).map (fun s => pcueOf (cueOf i s)) := by
  unfold formatCues
  rw [List.getElem?_map, List.getElem?_map, List.getElem?_enum, Option.map_map, Option.map_map]
  rfl

/-- C3 (amended): for ascending, non-overlapping segment sequences the
subtitle document parses back into exactly one cue per segment with
`start ≤ end` inside each cue; the rendered end of a cue never exceeds the
rendered start of the next cue whenever the model-reported start and end of
the earlier segment differ, and in the clamped (`start == end`) case it can
overshoot the next start by at most 1 ms. -/
theorem claim_C3_parse_back_amended (segs : List Segment) (hne : segs ≠ [])
    (htext : ∀ s ∈ segs, trimChars s.text.data ≠ [] ∧ '\n' ∉ trimChars s.text.data)
    (hms : ∀ s ∈ segs, msOf s.startSec < 360000000 ∧ msOf s.endSec + 1 < 360000000)
    (hse : ∀ s ∈ segs, s.startSec ≤ s.endSec)
    (hord : ∀ i s t, segs[i]? = some s → segs[i + 1]? = some t → s.endSec ≤ t.startSec) :
    ∃ cs, parseSRT ((format segs).subtitleText) = some cs ∧
      cs.length = segs.length ∧
      (∀ (i : ℕ) (p : PCue), cs[i]? = some p → p.startMs ≤ p.endMs) ∧
      (∀ (i : ℕ) (s t : Segment) (p q : PCue), segs[i]? = some s → segs[i + 1]? = some t →
        cs[i]? = some p → cs[i + 1]? = some q →
        p.endMs ≤ q.startMs + 1 ∧ (s.startSec ≠ s.endSec → p.endMs ≤ q.startMs)) := by
  refine ⟨(formatCues segs).map pcueOf, parseSRT_format segs hne htext hms,
    by simp [formatCues], ?_, ?_⟩
  · intro i p hp
    rw [parsed_getElem] at hp
    rcases Option.map_eq_some'.mp hp with ⟨s, hs, rfl⟩
    have hmem := List.getElem?_mem hs
    show msOf s.startSec ≤ (if s.startSec = s.endSec then msOf s.startSec + 1 else msOf s.endSec)
    by_cases hq : s.startSec = s.endSec
    · rw [if_pos hq]; omega
    · rw [if_neg hq]; exact msOf_mono (hse s hmem)
  · intro i s t p q hs ht hp hq2
    rw [parsed_getElem, hs] at hp
    rw [parsed_getElem, ht] at hq2
    rcases Option.map_eq_some'.mp hp with ⟨s2, hs2, hps⟩
    rcases Option.map_eq_some'.mp hq2 with ⟨t2, ht2, hqt⟩
    rw [Option.some_inj] at hs2 ht2
    subst hs2; subst ht2; subst hps; subst hqt
    have hord1 := hord i s t hs ht
    constructor
    · show (if s.startSec = s.endSec then msOf s.startSec + 1 else msOf s.endSec)
        ≤ msOf t.startSec + 1
      by_cases hq : s.startSec = s.endSec
      · rw [if_pos hq]
        have h1 : msOf s.startSec ≤ msOf t.startSec := msOf_mono (by rw [hq]; exact hord1)
        omega
      · rw [if_neg hq]
        have h1 : msOf s.endSec ≤ msOf t.startSec := msOf_mono hord1
        omega
    · intro hneq
      show (if s.startSec = s.endSec then msOf s.startSec + 1 else msOf s.endSec)
        ≤ msOf t.startSec
      rw [if_neg hneq]
      exact msOf_mono hord1

/-- Witness for the amended C3 on a concrete well-separated sequence. -/
theorem claim_C3_parse_back_amended_witness :
    (okSegs ≠ [] ∧
     (∀ s ∈ okSegs, trimChars s.text.data ≠ [] ∧ '\n' ∉ trimChars s.text.data) ∧
     (∀ s ∈ okSegs, msOf s.startSec < 360000000 ∧ msOf s.endSec + 1 < 360000000) ∧
     (∀ s ∈ okSegs, s.startSec ≤ s.endSec) ∧
     (∀ i s t, okSegs[i]? = some s → okSegs[i + 1]? = some t → s.endSec ≤ t.startSec)) ∧
    (∃ cs, parseSRT ((format okSegs).subtitleText) = some cs ∧
      cs.length = okSegs.length ∧
      (∀ (i : ℕ) (p : PCue), cs[i]? = some p → p.startMs ≤ p.endMs) ∧
      (∀ (i : ℕ) (s t : Segment) (p q : PCue), okSegs[i]? = some s →
        okSegs[i + 1]? = some t → cs[i]? = some p → cs[i + 1]? = some q →
        p.endMs ≤ q.startMs + 1 ∧ (s.startSec ≠ s.endSec → p.endMs ≤ q.startMs))) := by
  have hm0 : msOf (0 : ℚ) = 0 := by
    have h : Int.floor ((0 : ℚ) * 1000) = 0 := by norm_num
    simp [msOf, h]
  have hm1 : msOf (1 : ℚ) = 1000 := by
    have h : Int.floor ((1 : ℚ) * 1000) = 1000 := by norm_num
    simp [msOf, h]
  have hm32 : msOf (3 / 2 : ℚ) = 1500 := by
    have h : Int.floor ((3 / 2 : ℚ) * 1000) = 1500 := by norm_num
    simp [msOf, h]
  have hm2 : msOf (2 : ℚ) = 2000 := by
    have h : Int.floor ((2 : ℚ) * 1000) = 2000 := by norm_num
    simp [msOf, h]
  have h1 : okSegs ≠ [] := by simp [okSegs]
  have h2 : ∀ s ∈ okSegs, trimChars s.text.data ≠ [] ∧ '\n' ∉ trimChars s.text.data := by
    intro s hs
    simp [okSegs] at hs
    rcases hs with rfl | rfl <;> constructor <;> decide
  have h3 : ∀ s ∈ okSegs, msOf s.startSec < 360000000 ∧ msOf s.endSec + 1 < 360000000 := by
    intro s hs
    simp [okSegs] at hs
    rcases hs with rfl | rfl
    · constructor
      · show msOf (0 : ℚ) < 360000000
        rw [hm0]; omega
      · show msOf (1 : ℚ) + 1 < 360000000
        rw [hm1]; omega
    · constructor
      · show msOf (3 / 2 : ℚ) < 360000000
        rw [hm32]; omega
      · show msOf (2 : ℚ) + 1 < 360000000
        rw [hm2]; omega
  have h4 : ∀ s ∈ okSegs, s.startSec ≤ s.endSec := by
    intro s hs
    simp [okSegs] at hs
    rcases hs with rfl | rfl
    · show (0 : ℚ) ≤ 1
      norm_num
    · show (3 / 2 : ℚ) ≤ 2
      norm_num
  have h5 : ∀ i s t, okSegs[i]? = some s → okSegs[i + 1]? = some t → s.endSec ≤ t.startSec := by
    intro i s t hs ht
    cases i with
    | zero =>
      simp [okSegs] at hs ht
      subst hs
      subst ht
      show (1 : ℚ) ≤ 3 / 2
      norm_num
    | succ n =>
      rw [List.getElem?_eq_none
        (by simp only [okSegs, List.length_cons, List.length_nil]; omega)] at ht
      exact Option.noConfusion ht
  exact ⟨⟨h1, h2, h3, h4, h5⟩, claim_C3_parse_back_amended okSegs h1 h2 h3 h4 h5⟩

/-- Counterexample to C3 as stated: `ceSegs` is ascending (starts 1 and
2001/2000) and non-overlapping (first ends at 1, second starts at 2001/2000),
yet the parsed document has end 1001 ms on the first cue and start 1000 ms
on the second, so `end[0] ≤ start[1]` fails. -/
theorem claim_C3_counterexample :
    ceSegs.map Segment.startSec = [1, 2001 / 2000] ∧
    ceSegs.map Segment.endSec = [1, 2] ∧
    (1 : ℚ) ≤ 1 ∧ (1 : ℚ) < 2001 / 2000 ∧ (2001 / 2000 : ℚ) ≤ 2 ∧
    parseSRT ((format ceSegs).subtitleText)
      = some [PCue.mk 1000 1001 (("a").data), PCue.mk 1000 2000 (("b").data)] ∧
    ¬ (1001 ≤ 1000) := by
  have hm1 : msOf (1 : ℚ) = 1000 := by
    have h : Int.floor ((1 : ℚ) * 1000) = 1000 := by norm_num
    simp [msOf, h]
  have hm2 : msOf (2001 / 2000 : ℚ) = 1000 := by
    have h : Int.floor ((2001 / 2000 : ℚ) * 1000) = 1000 := by norm_num
    simp [msOf, h]
  have hm3 : msOf (2 : ℚ) = 2000 := by
    have h : Int.floor ((2 : ℚ) * 1000) = 2000 := by norm_num
    simp [msOf, h]
  have hq : ¬ ((2001 / 2000 : ℚ) = 2) := by norm_num
  have hcues : formatCues ceSegs
      = [Cue.mk 1 1000 1001 (("a").data), Cue.mk 2 1000 2000 (("b").data)] := by
    unfold ceSegs formatCues
    simp [List.enum, List.enumFrom, cueOf, hm1, hm2, hm3, hq]
    decide
  refine ⟨by simp [ceSegs], by simp [ceSegs], le_refl _, by norm_num, by norm_num, ?_, by omega⟩
  show parseSRT (subtitleTextOf ceSegs) = _
  unfold subtitleTextOf subtitleLinesOf
  rw [hcues]
  decide

end Whisper
